import Mathlib

/-!
# Verification of the plog timer CLI (`plog.py`)

A shallow embedding of the core of `plog.py`: the persisted timer-state file
(`plog.staging`), its line format, the `start` / `stop` / `status` / `reset` /
`push` commands, and the conversion of recorded intervals into attendance
records for the remote API.

Modelling conventions:
* Python `float` timestamps are modelled as exact rationals (`ℚ`); the
  non-finite floats (`inf`, `nan`) and the underscore digit separators of
  Python numeric literals are outside the model, and `repr` of a float is
  modelled in the plain-decimal regime (no exponent notation), which covers
  every value this program manipulates.
* The persisted file is modelled as its list of lines (`List String`), each
  line without its trailing newline, matching `readlines` + `strip`.
* Local-time conversion (`datetime.fromtimestamp`) is modelled with an
  explicit fixed UTC offset `tz` in seconds.
* The remote sink (`requests.post`) is modelled by a `SinkResult` parameter:
  either a transport error (the call raises) or an HTTP status code (the
  call returns and `log_work_to_plog_api` merely echoes the outcome).
-/

namespace Plog

/-- A timer interval as stored in `plog.staging`: a start timestamp in epoch
seconds and an optional stop timestamp (`None` while the timer runs). -/
structure Interval where
  start : ℚ
  stop  : Option ℚ
deriving DecidableEq

instance {ε α : Type} [DecidableEq ε] [DecidableEq α] : DecidableEq (Except ε α) := fun a b =>
  match a, b with
  | .ok x, .ok y =>
    if h : x = y then .isTrue (by rw [h]) else .isFalse (fun hc => h (Except.ok.inj hc))
  | .error x, .error y =>
    if h : x = y then .isTrue (by rw [h]) else .isFalse (fun hc => h (Except.error.inj hc))
  | .ok _, .error _ => .isFalse (fun hc => Except.noConfusion hc)
  | .error _, .ok _ => .isFalse (fun hc => Except.noConfusion hc)

/-! ## Characters, whitespace, splitting (Python `str.strip` / `str.split`) -/

/-- The ASCII whitespace characters removed by Python's `str.strip()`. -/
def isPyWs (c : Char) : Bool :=
  c = ' ' || c = '\t' || c = '\n' || c = '\r' || c = '\x0b' || c = '\x0c'

/-- Python `str.strip()` on a list of characters. -/
def trimChars (cs : List Char) : List Char :=
  ((cs.dropWhile isPyWs).reverse.dropWhile isPyWs).reverse

/-- Python `str.split(sep)` for a one-character separator: `"".split(",") = [""]`,
and every occurrence of the separator starts a new field. -/
def splitOnChar (sep : Char) : List Char → List (List Char)
  | [] => [[]]
  | c :: cs =>
    match splitOnChar sep cs with
    | [] => [[]]
    | f :: r => if c = sep then [] :: f :: r else (c :: f) :: r

/-! ## Python `float()` parsing, modelled exactly on finite decimal literals -/

/-- Numeric value of a list of decimal digit characters (most significant first). -/
def digitsVal (ds : List Char) : Nat :=
  ds.foldl (fun a c => 10 * a + (c.toNat - 48)) 0

/-- Strip one optional leading sign, returning the sign as `1` or `-1`. -/
def splitSign : List Char → Int × List Char
  | '+' :: cs => (1, cs)
  | '-' :: cs => (-1, cs)
  | cs => (1, cs)

/-- Python `float(s)` on an already-stripped character list: optional sign,
then digits with an optional decimal point (at least one digit overall),
then an optional exponent part.  Returns `none` where `float()` raises
`ValueError`. -/
def pyFloatCore (cs : List Char) : Option ℚ :=
  let (sgn, cs1) := splitSign cs
  let ip := cs1.takeWhile Char.isDigit
  let cs2 := cs1.dropWhile Char.isDigit
  let (fp, cs3) :=
    match cs2 with
    | '.' :: r => (r.takeWhile Char.isDigit, r.dropWhile Char.isDigit)
    | r => ([], r)
  if ip.isEmpty && fp.isEmpty then none
  else
    let mant : ℚ := (sgn : ℚ) * ((digitsVal ip : ℚ) + (digitsVal fp : ℚ) / (10 : ℚ) ^ fp.length)
    match cs3 with
    | [] => some mant
    | e :: r =>
      if e = 'e' || e = 'E' then
        let (esgn, r1) := splitSign r
        let ed := r1.takeWhile Char.isDigit
        let r2 := r1.dropWhile Char.isDigit
        if ed.isEmpty || !r2.isEmpty then none
        else some (mant * (10 : ℚ) ^ (esgn * (digitsVal ed : Int)))
      else none

/-- Python `float(s)` on a string (which strips surrounding whitespace itself). -/
def pyFloat (s : String) : Option ℚ := pyFloatCore (trimChars s.data)

/-! ## Python `repr`/f-string formatting of floats (plain-decimal regime) -/

/-- Decimal digits of `m`, left-padded with `'0'` so that at least `k + 1`
digits are available (so a decimal point can be inserted `k` digits from
the right, as in `0.05`). -/
def decimalDigitsPad (m k : Nat) : List Char :=
  let ds := Nat.toDigits 10 m
  if ds.length ≤ k then List.replicate (k + 1 - ds.length) '0' ++ ds else ds

/-- The least `k` (searched from `k0` with the given fuel) such that
`a * 10 ^ k` is an integer — the number of decimal digits a finite-decimal
rational needs after the point. -/
def findDecExp (a : ℚ) : Nat → Nat → Option Nat
  | 0, _ => none
  | fuel + 1, k => if (a * (10 : ℚ) ^ k).den = 1 then some k else findDecExp a fuel (k + 1)

/-- Python `f"{x}"` for a float `x`, in the plain-decimal regime: an integer
value prints with a trailing `.0`, other finite-decimal values print their
shortest decimal expansion.  (A rational that is not a finite decimal is not
a float value; the fallback arm is never exercised by float data.  Every
float needs at most 1075 fractional digits, which the fuel covers.) -/
def fmtFloat (q : ℚ) : String :=
  let sgn := if q < 0 then "-" else ""
  let a : ℚ := |q|
  match findDecExp a 1101 0 with
  | some 0 => sgn ++ (Nat.toDigits 10 a.num.toNat).asString ++ ".0"
  | some k =>
    let ds := decimalDigitsPad (a * (10 : ℚ) ^ k).num.toNat k
    let n := ds.length - k
    sgn ++ (ds.take n).asString ++ "." ++ (ds.drop n).asString
  | none => sgn ++ (Nat.toDigits 10 a.num.toNat).asString ++ "/" ++ (Nat.toDigits 10 a.den).asString

/-- Python `f"{end}"` for the second field of a stored line: the `None`
object prints as the four characters `None`. -/
def fmtEndPy : Option ℚ → String
  | none => "None"
  | some e => fmtFloat e

/-! ## TimerStore: `save_timer_state`, `load_timer_state`, `update_timer_state` -/

/-- The line `update_timer_state` writes for one interval: `f"{start},{end}"`. -/
def serializeLine (iv : Interval) : String :=
  fmtFloat iv.start ++ "," ++ fmtEndPy iv.stop

/-- `update_timer_state(timer_data)`: overwrite the whole file, one line
`f"{start},{end}"` per interval. -/
def update_timer_state (timers : List Interval) : List String :=
  timers.map serializeLine

/-- The line `save_timer_state(start)` appends for a fresh timer: the `end`
argument defaults to the empty string, so the line is `f"{start},"`. -/
def save_timer_state_line (start : ℚ) : String :=
  fmtFloat start ++ ","

/-- The body of `load_timer_state`'s second comprehension for one line that
split into exactly two fields: `(float(start), float(end) if end else None)`
— the first field goes through `float(...)`; an empty (falsy) second field
means the interval is open, any other second field goes through `float(...)`
as well.  A `float` failure raises (is an `error`). -/
def parseTwoFields (a b : List Char) : Except String Interval :=
  match pyFloatCore (trimChars a) with
  | none => .error "ValueError: could not convert string to float"
  | some s =>
    if b.isEmpty then .ok ⟨s, none⟩
    else
      match pyFloatCore (trimChars b) with
      | none => .error "ValueError: could not convert string to float"
      | some e => .ok ⟨s, some e⟩

/-- Tuple unpacking `for start, end in timers`: anything but exactly two
fields raises a `ValueError`. -/
def parseFields : List (List Char) → Except String Interval
  | [a, b] => parseTwoFields a b
  | _ => .error "ValueError: not exactly two comma-separated fields"

/-- Parsing of one stored line inside `load_timer_state`:
`line.strip().split(',')`, unpacked and converted. -/
def parseTimerLine (line : String) : Except String Interval :=
  parseFields (splitOnChar ',' (trimChars line.data))

/-- Whether `load_timer_state` would raise on this line (malformed field
count or a field `float()` rejects). -/
def parseRejects (line : String) : Bool :=
  match parseTimerLine line with
  | .error _ => true
  | .ok _ => false

/-- `load_timer_state` over the lines of an existing file: parse every line
left to right; the first malformed line aborts the whole load. -/
def loadLines : List String → Except String (List Interval)
  | [] => .ok []
  | l :: ls =>
    match parseTimerLine l with
    | .error e => .error e
    | .ok iv =>
      match loadLines ls with
      | .error e => .error e
      | .ok rest => .ok (iv :: rest)

/-- `load_timer_state()`: a missing file yields the empty list, otherwise the
file's lines are parsed strictly. -/
def load_timer_state : Option (List String) → Except String (List Interval)
  | none => .ok []
  | some lines => loadLines lines

/-! ## Local calendar dates and `strftime` (`%Y-%m-%d`, `%H:%M:%S`) -/

/-- `⌊q⌋` for a rational, computed directly. -/
def floorQ (q : ℚ) : Int := q.num.fdiv (q.den : Int)

/-- Whole local-time seconds of an epoch timestamp under UTC offset `tz`. -/
def localSeconds (tz t : ℚ) : Int := floorQ (t + tz)

/-- The local calendar day number (days since 1970-01-01) of a timestamp;
two timestamps have equal `datetime.fromtimestamp(..).date()` exactly when
their day numbers agree. -/
def localDay (tz t : ℚ) : Int := (localSeconds tz t).fdiv 86400

/-- The second of the local day of a timestamp. -/
def secondOfDay (tz t : ℚ) : Nat := ((localSeconds tz t).fmod 86400).toNat

/-- Gregorian `(year, month, day)` of a day number counted from 1970-01-01
(standard civil-from-days conversion). -/
def civilFromDays (z0 : Int) : Int × Nat × Nat :=
  let z := z0 + 719468
  let era : Int := z.fdiv 146097
  let doe : Nat := (z - era * 146097).toNat
  let yoe : Nat := (doe - doe / 1460 + doe / 36524 - doe / 146096) / 365
  let doy : Nat := doe - (365 * yoe + yoe / 4 - yoe / 100)
  let mp : Nat := (5 * doy + 2) / 153
  let d : Nat := doy - (153 * mp + 2) / 5 + 1
  let m : Nat := if mp < 10 then mp + 3 else mp - 9
  (era * 400 + (yoe : Int) + (if m ≤ 2 then 1 else 0), m, d)

/-- A natural number printed with at least two digits (`strftime` zero padding). -/
def pad2 (n : Nat) : String :=
  if n < 10 then "0" ++ (Nat.toDigits 10 n).asString else (Nat.toDigits 10 n).asString

/-- A natural number printed with at least four digits (`%Y` zero padding). -/
def pad4 (n : Nat) : String :=
  if n < 10 then "000" ++ (Nat.toDigits 10 n).asString
  else if n < 100 then "00" ++ (Nat.toDigits 10 n).asString
  else if n < 1000 then "0" ++ (Nat.toDigits 10 n).asString
  else (Nat.toDigits 10 n).asString

/-- `datetime.fromtimestamp(t).strftime("%Y-%m-%d")` under offset `tz`. -/
def fmtDate (tz t : ℚ) : String :=
  match civilFromDays (localDay tz t) with
  | (y, m, d) => pad4 y.toNat ++ "-" ++ pad2 m ++ "-" ++ pad2 d

/-- `datetime.fromtimestamp(t).strftime("%H:%M:%S")` under offset `tz`. -/
def fmtTime (tz t : ℚ) : String :=
  let s := secondOfDay tz t
  pad2 (s / 3600) ++ ":" ++ pad2 (s % 3600 / 60) ++ ":" ++ pad2 (s % 60)

/-- `datetime.fromtimestamp(t).strftime("%Y-%m-%d %H:%M:%S")` under offset `tz`. -/
def fmtDateTime (tz t : ℚ) : String :=
  fmtDate tz t ++ " " ++ fmtTime tz t

/-! ## The commands, at the level of the loaded store -/

/-- `start`: if the last timer has no end time, report that it is already
running and leave the store alone; otherwise append a fresh open interval
starting at `now` (via `save_timer_state`). -/
def start (now : ℚ) (timers : List Interval) : List Interval × String :=
  match timers.getLast? with
  | some iv =>
    if iv.stop = none then (timers, "Timer is already running.")
    else (timers ++ [⟨now, none⟩], "New timer started.")
  | none => (timers ++ [⟨now, none⟩], "New timer started.")

/-- `stop`: if the last timer is open, close it at `now` and rewrite the whole
store (via `update_timer_state`); otherwise report that nothing is running. -/
def stop (now : ℚ) (timers : List Interval) : List Interval × String :=
  match timers.getLast? with
  | some iv =>
    if iv.stop = none then
      (timers.dropLast ++ [⟨iv.start, some now⟩], "Timer stopped.")
    else (timers, "No timer is currently running.")
  | none => (timers, "No timer is currently running.")

/-- What `status` reports: nothing started, the last timer (closed or still
running), or the `--all` listing with a total. -/
inductive StatusReport
  | noTimer
  | lastClosed (startStr endStr : String) (dur : ℚ)
  | lastRunning (startStr : String) (dur : ℚ)
  | allTimers (rows : List (String × String × ℚ)) (total : ℚ)
deriving DecidableEq

/-- The `status --all` loop: one row `(start_dt, end_dt, duration)` per timer
(an open timer shows `Currently Running` and is measured against `now`),
plus the accumulated `total_duration` in seconds. -/
def statusAllLoop (tz now : ℚ) : List Interval → List (String × String × ℚ) × ℚ
  | [] => ([], 0)
  | iv :: rest =>
    let te : ℚ := match iv.stop with | none => now | some e => e
    let endStr : String := match iv.stop with | none => "Currently Running" | some e => fmtDateTime tz e
    let dur := te - iv.start
    let (rows, total) := statusAllLoop tz now rest
    ((fmtDateTime tz iv.start, endStr, dur) :: rows, dur + total)

/-- `status [-a]`: an empty store reports nothing started; `--all` runs the
aggregate loop; otherwise only the last timer is shown, and the closed/open
decision is `if timer_end:` — the truthiness of the end value, so both `None`
and an end time of exactly `0.0` take the "Currently Running" branch. -/
def status (all : Bool) (tz now : ℚ) (timers : List Interval) : List Interval × StatusReport :=
  if timers.isEmpty then (timers, .noTimer)
  else if all then
    let (rows, total) := statusAllLoop tz now timers
    (timers, .allTimers rows total)
  else
    match timers.getLast? with
    | none => (timers, .noTimer)
    | some iv =>
      let startStr := fmtDateTime tz iv.start
      match iv.stop with
      | some e =>
        if e = 0 then (timers, .lastRunning startStr (now - iv.start))
        else (timers, .lastClosed startStr (fmtDateTime tz e) (e - iv.start))
      | none => (timers, .lastRunning startStr (now - iv.start))

/-- `reset`: delete the state file unconditionally. -/
def reset (_timers : List Interval) : List Interval × String :=
  ([], "Timer has been reset.")

/-! ## `push`: attendance building and the sink call -/

/-- The end timestamp `push` and `status --all` use for an interval: the
recorded end, or `now` (`time.time()`) if the timer is still running. -/
def effectiveEnd (now : ℚ) (iv : Interval) : ℚ :=
  iv.stop.getD now

/-- The attendance dictionary `push` builds for one interval. -/
structure Attendance where
  comment : String
  date : String
  start_time : String
  end_time : String
deriving DecidableEq

/-- The record the `push` loop appends for one interval. -/
def mkAttendance (tz now : ℚ) (message : String) (iv : Interval) : Attendance :=
  { comment := message
    date := fmtDate tz iv.start
    start_time := fmtTime tz iv.start
    end_time := fmtTime tz (effectiveEnd now iv) }

/-- The message of the exception `push` raises on a cross-midnight interval. -/
def crossMidnightMsg : String :=
  "Error: Start and end date of each worklog entry must be the same. Call 'plog status', to evaluate."

/-- The `push` loop over the loaded timers: substitute `now` for a missing
end, raise on the first interval whose start and (substituted) end fall on
different local dates, otherwise collect one attendance per interval. -/
def buildAttendances (tz now : ℚ) (message : String) : List Interval → Except String (List Attendance)
  | [] => .ok []
  | iv :: rest =>
    if localDay tz iv.start = localDay tz (effectiveEnd now iv) then
      match buildAttendances tz now message rest with
      | .error e => .error e
      | .ok tail => .ok (mkAttendance tz now message iv :: tail)
    else .error crossMidnightMsg

/-- Behaviour of the remote sink during `log_work_to_plog_api`: either
`requests.post` raises (transport error), or it returns a response with some
HTTP status code — and `log_work_to_plog_api` returns normally in both the
200 and the non-200 branch, only its echo differs. -/
inductive SinkResult
  | transportError
  | status (code : Nat)
deriving DecidableEq

/-- The observable outcome of one `push` invocation: the persisted store
afterwards, the payloads sent over the network, and the uncaught exception,
if any. -/
structure PushOutcome where
  store : List Interval
  calls : List (List Attendance)
  err : Option String
deriving DecidableEq

/-- `push`: missing configuration or an empty store returns early; a
cross-midnight interval raises before any network traffic; otherwise the
attendances are POSTed once, and — whatever status code came back —
`delete_timer_state()` runs.  Only a raising transport error leaves the
store in place. -/
def push (envOk : Bool) (tz now : ℚ) (message : String) (sink : SinkResult)
    (timers : List Interval) : PushOutcome :=
  if !envOk then ⟨timers, [], none⟩
  else if timers.isEmpty then ⟨timers, [], none⟩
  else
    match buildAttendances tz now message timers with
    | .error e => ⟨timers, [], some e⟩
    | .ok atts =>
      match sink with
      | .transportError => ⟨timers, [atts], some "requests.exceptions.ConnectionError"⟩
      | .status _ => ⟨[], [atts], none⟩

/-! ## The store invariant -/

/-- The store invariant: every interval except possibly the last one is
closed (so at most one interval is open, and only the last-appended one). -/
def wfStore (timers : List Interval) : Prop :=
  ∀ iv ∈ timers.dropLast, iv.stop ≠ none

instance (timers : List Interval) : Decidable (wfStore timers) :=
  inferInstanceAs (Decidable (∀ iv ∈ timers.dropLast, iv.stop ≠ none))

/-! ## Theorems -/

/-- C1: the claim says a non-2xx response from the sink leaves the persisted
store non-empty and identical to its pre-push content.  The code does not:
`log_work_to_plog_api` returns normally after a non-200 response (it only
echoes the failure), so `push` falls through to `delete_timer_state()` and
the store is cleared — here a one-interval store pushed against a sink that
answers HTTP 500 ends up empty, contradicting the claim (and the code's own
comment "Clear the timer state after successful push"). -/
theorem push_clears_store_on_remote_http_failure :
    push true 0 300 "m" (.status 500) [⟨100, some 200⟩] =
      ⟨[], [[⟨"m", "1970-01-01", "00:01:40", "00:03:20"⟩]], none⟩ ∧
    ([] : List Interval) ≠ [⟨100, some 200⟩] :=
  ⟨by with_unfolding_all rfl, by decide⟩

/-- C10: if the last interval is closed with an end timestamp of exactly
`0.0`, `status` without `--all` still reports it as "Currently Running" with
a duration measured against `now`, because the closed/open decision is the
truthiness test `if timer_end:` rather than a presence test. -/
theorem status_zero_end_reported_running (tz now s : ℚ) (pre : List Interval) :
    status false tz now (pre ++ [⟨s, some 0⟩]) =
      (pre ++ [⟨s, some 0⟩], .lastRunning (fmtDateTime tz s) (now - s)) := by
  have h1 : (pre ++ [(⟨s, some 0⟩ : Interval)]).isEmpty = false := by
    cases pre <;> rfl
  have h2 : (pre ++ [(⟨s, some 0⟩ : Interval)]).getLast? = some ⟨s, some 0⟩ :=
    List.getLast?_concat _
  simp [status, h1, h2]

/-- C8: `start` on a store whose last interval is open is a no-op that
reports the timer as already running; on an empty store or one whose last
interval is closed it appends exactly one fresh interval with `start = now`
and no end. -/
theorem start_guard_and_append (now : ℚ) (timers : List Interval) :
    (∀ iv, timers.getLast? = some iv → iv.stop = none →
      start now timers = (timers, "Timer is already running.")) ∧
    (timers = [] →
      start now timers = (timers ++ [⟨now, none⟩], "New timer started.")) ∧
    (∀ iv e, timers.getLast? = some iv → iv.stop = some e →
      start now timers = (timers ++ [⟨now, none⟩], "New timer started.")) := by
  refine ⟨?_, ?_, ?_⟩
  · intro iv hl hs
    simp [start, hl, hs]
  · intro h
    subst h
    rfl
  · intro iv e hl hs
    simp [start, hl, hs]

/-- C8 witness: a running store is left untouched with the "already running"
report, and `start` on the empty store appends one open interval at `now`. -/
theorem start_guard_and_append_witness :
    (([⟨1, none⟩] : List Interval).getLast? = some ⟨1, none⟩) ∧
    ((⟨1, none⟩ : Interval).stop = none) ∧
    start 5 [⟨1, none⟩] = ([⟨1, none⟩], "Timer is already running.") ∧
    start 5 [] = ([⟨5, none⟩], "New timer started.") :=
  ⟨rfl, rfl, (start_guard_and_append 5 [⟨1, none⟩]).1 ⟨1, none⟩ rfl rfl,
    (start_guard_and_append 5 []).2.1 rfl⟩

/-- C9: `stop` on a store whose last interval is open closes exactly that
interval at `now` and keeps every earlier interval untouched; on an empty
store or one whose last interval is already closed it is a no-op reporting
that no timer is running. -/
theorem stop_closes_only_last (now : ℚ) (timers : List Interval) :
    (∀ pre iv, timers = pre ++ [iv] → iv.stop = none →
      stop now timers = (pre ++ [⟨iv.start, some now⟩], "Timer stopped.")) ∧
    (timers = [] →
      stop now timers = (timers, "No timer is currently running.")) ∧
    (∀ pre iv e, timers = pre ++ [iv] → iv.stop = some e →
      stop now timers = (timers, "No timer is currently running.")) := by
  refine ⟨?_, ?_, ?_⟩
  · intro pre iv hsplit hs
    subst hsplit
    simp [stop, List.getLast?_concat, hs, List.dropLast_concat]
  · intro h
    subst h
    rfl
  · intro pre iv e hsplit hs
    subst hsplit
    simp [stop, List.getLast?_concat, hs]

/-- C9 witness: `stop` at `now = 9` closes only the open last interval of a
two-interval store and leaves the closed first interval byte-identical, and
`stop` on the empty store is a no-op. -/
theorem stop_closes_only_last_witness :
    ([⟨1, some 2⟩, ⟨4, none⟩] : List Interval) = [⟨1, some 2⟩] ++ [⟨4, none⟩] ∧
    ((⟨4, none⟩ : Interval).stop = none) ∧
    stop 9 [⟨1, some 2⟩, ⟨4, none⟩] =
      ([⟨1, some 2⟩] ++ [⟨(4 : ℚ), some 9⟩], "Timer stopped.") ∧
    stop 9 [] = (([] : List Interval), "No timer is currently running.") :=
  ⟨rfl, rfl,
    (stop_closes_only_last 9 [⟨1, some 2⟩, ⟨4, none⟩]).1 [⟨1, some 2⟩] ⟨4, none⟩ rfl rfl,
    (stop_closes_only_last 9 []).2.1 rfl⟩

/-- The `push` loop raises the cross-midnight exception whenever some
interval's start and (now-substituted) end lie on different local dates. -/
theorem buildAttendances_error_of_bad (tz now : ℚ) (msg : String) (timers : List Interval)
    (h : ∃ iv ∈ timers, localDay tz iv.start ≠ localDay tz (effectiveEnd now iv)) :
    buildAttendances tz now msg timers = .error crossMidnightMsg := by
  induction timers with
  | nil => rcases h with ⟨iv, hmem, _⟩; cases hmem
  | cons a rest ih =>
    rcases h with ⟨iv, hmem, hneq⟩
    by_cases hc : localDay tz a.start = localDay tz (effectiveEnd now a)
    · have hivr : iv ∈ rest := by
        rcases List.mem_cons.mp hmem with h' | h'
        · exact absurd hc (h' ▸ hneq)
        · exact h'
      simp [buildAttendances, hc, ih ⟨iv, hivr, hneq⟩]
    · simp [buildAttendances, hc]

/-- C3: when the store contains an interval whose start and (possibly
now-substituted) end fall on different local calendar dates, `push` raises
the cross-midnight validation error, performs no network call, and leaves
the store exactly as it was. -/
theorem push_cross_midnight_no_call_store_unchanged (tz now : ℚ) (msg : String)
    (sink : SinkResult) (timers : List Interval)
    (hbad : ∃ iv ∈ timers, localDay tz iv.start ≠ localDay tz (effectiveEnd now iv)) :
    push true tz now msg sink timers = ⟨timers, [], some crossMidnightMsg⟩ := by
  have hne : timers.isEmpty = false := by
    rcases hbad with ⟨iv, hmem, _⟩
    cases timers
    · cases hmem
    · rfl
  simp [push, hne, buildAttendances_error_of_bad tz now msg timers hbad]

/-- C3 witness: the spec's own example — an interval from local
2024-01-01T23:00:00 to 2024-01-02T01:00:00 — makes `push` fail with the
cross-midnight error, send nothing, and keep the store intact. -/
theorem push_cross_midnight_witness :
    (∃ iv ∈ ([⟨1704150000, some 1704157200⟩] : List Interval),
      localDay 0 iv.start ≠ localDay 0 (effectiveEnd 0 iv)) ∧
    push true 0 0 "worked" (.status 200) [⟨1704150000, some 1704157200⟩] =
      ⟨[⟨1704150000, some 1704157200⟩], [], some crossMidnightMsg⟩ :=
  ⟨of_decide_eq_true (by with_unfolding_all rfl),
    push_cross_midnight_no_call_store_unchanged 0 0 "worked" (.status 200) _
      (of_decide_eq_true (by with_unfolding_all rfl))⟩

/-- C5: a successful `push` build produces exactly one attendance record per
interval, each carrying the common message, the interval's local date, and
its `HH:MM:SS` start and (now-substituted) end times — the record at index
`i` is a pure function of the interval at index `i`, the message and `now`. -/
theorem push_one_record_per_interval (tz now : ℚ) (msg : String)
    (timers : List Interval) (recs : List Attendance)
    (h : buildAttendances tz now msg timers = .ok recs) :
    recs.length = timers.length ∧
    (∀ r ∈ recs, r.comment = msg) ∧
    (∀ i (hi : i < timers.length) (hr : i < recs.length),
      recs.get ⟨i, hr⟩ = mkAttendance tz now msg (timers.get ⟨i, hi⟩)) := by
  induction timers generalizing recs with
  | nil =>
    cases h
    refine ⟨rfl, ?_, ?_⟩
    · intro r hr
      cases hr
    · intro i hi
      cases hi
  | cons a rest ih =>
    unfold buildAttendances at h
    by_cases hc : localDay tz a.start = localDay tz (effectiveEnd now a)
    · rw [if_pos hc] at h
      cases hrec : buildAttendances tz now msg rest with
      | error e => rw [hrec] at h; cases h
      | ok tail =>
        rw [hrec] at h
        cases h
        obtain ⟨hlen, hcom, hidx⟩ := ih tail hrec
        refine ⟨by simp [hlen], ?_, ?_⟩
        · intro r hr
          rcases List.mem_cons.mp hr with h' | h'
          · rw [h']; rfl
          · exact hcom r h'
        · intro i hi hr
          cases i with
          | zero => rfl
          | succ j => exact hidx j (Nat.lt_of_succ_lt_succ hi) (Nat.lt_of_succ_lt_succ hr)
    · rw [if_neg hc] at h
      cases h

/-- C5 witness: the spec's example — one interval 2024-01-01 09:00–17:00
with message "worked" — yields exactly the one expected record, matching the
general per-index description. -/
theorem push_one_record_witness :
    buildAttendances 0 0 "worked" [⟨1704099600, some 1704128400⟩] =
      .ok [⟨"worked", "2024-01-01", "09:00:00", "17:00:00"⟩] ∧
    ([(⟨"worked", "2024-01-01", "09:00:00", "17:00:00"⟩ : Attendance)].length =
      [(⟨1704099600, some 1704128400⟩ : Interval)].length ∧
    (∀ r ∈ [(⟨"worked", "2024-01-01", "09:00:00", "17:00:00"⟩ : Attendance)],
      r.comment = "worked") ∧
    (∀ i (hi : i < [(⟨1704099600, some 1704128400⟩ : Interval)].length)
        (hr : i < [(⟨"worked", "2024-01-01", "09:00:00", "17:00:00"⟩ : Attendance)].length),
      [(⟨"worked", "2024-01-01", "09:00:00", "17:00:00"⟩ : Attendance)].get ⟨i, hr⟩ =
        mkAttendance 0 0 "worked" ([(⟨1704099600, some 1704128400⟩ : Interval)].get ⟨i, hi⟩))) :=
  ⟨by with_unfolding_all rfl,
    push_one_record_per_interval 0 0 "worked" _ _ (by with_unfolding_all rfl)⟩

/-- The `status --all` running total is the sum of per-interval durations,
an open interval contributing `now - start`. -/
theorem statusAllLoop_total (tz now : ℚ) (timers : List Interval) :
    (statusAllLoop tz now timers).2 =
      (timers.map (fun iv => effectiveEnd now iv - iv.start)).sum := by
  induction timers with
  | nil => rfl
  | cons a rest ih =>
    cases ha : a.stop <;> simp [statusAllLoop, ha, ih, effectiveEnd]

/-- The `status --all` total never decreases as `now` grows. -/
theorem statusAllLoop_total_mono (tz now now' : ℚ) (timers : List Interval)
    (hle : now ≤ now') :
    (statusAllLoop tz now timers).2 ≤ (statusAllLoop tz now' timers).2 := by
  induction timers with
  | nil => exact le_refl 0
  | cons a rest ih =>
    cases ha : a.stop with
    | none =>
      simp only [statusAllLoop, ha]
      exact add_le_add (by exact sub_le_sub_right hle a.start) ih
    | some e =>
      simp only [statusAllLoop, ha]
      exact add_le_add (le_refl _) ih

/-- C6: on a non-empty store, `status --all` reports a total equal to the
sum of `(end - start)` over all intervals, an open interval contributing
`(now - start)`; and this total is monotonically non-decreasing in `now`. -/
theorem status_all_total_sum_and_mono (tz now now' : ℚ) (timers : List Interval)
    (hne : timers ≠ []) (hle : now ≤ now') :
    status true tz now timers =
      (timers, .allTimers (statusAllLoop tz now timers).1
        ((timers.map (fun iv => effectiveEnd now iv - iv.start)).sum)) ∧
    (statusAllLoop tz now timers).2 ≤ (statusAllLoop tz now' timers).2 := by
  have hisem : timers.isEmpty = false := by
    cases timers
    · exact absurd rfl hne
    · rfl
  refine ⟨?_, statusAllLoop_total_mono tz now now' timers hle⟩
  have htot := statusAllLoop_total tz now timers
  rcases hl : statusAllLoop tz now timers with ⟨rows, total⟩
  rw [hl] at htot
  simp [status, hisem, hl, htot]

/-- C6 witness: a store with one closed and one open interval: at `now = 20`
the reported total is `(3 - 1) + (20 - 10) = 12` seconds, and the total at
`now' = 30` is no smaller. -/
theorem status_all_total_witness :
    ([⟨1, some 3⟩, ⟨10, none⟩] : List Interval) ≠ [] ∧ (20 : ℚ) ≤ 30 ∧
    status true 0 20 [⟨1, some 3⟩, ⟨10, none⟩] =
      ([⟨1, some 3⟩, ⟨10, none⟩],
        .allTimers (statusAllLoop 0 20 [⟨1, some 3⟩, ⟨10, none⟩]).1
          ((([⟨1, some 3⟩, ⟨10, none⟩] : List Interval).map
            (fun iv => effectiveEnd 20 iv - iv.start)).sum)) ∧
    (statusAllLoop 0 20 [⟨1, some 3⟩, ⟨10, none⟩]).2 ≤
      (statusAllLoop 0 30 [⟨1, some 3⟩, ⟨10, none⟩]).2 :=
  ⟨by decide, of_decide_eq_true (by with_unfolding_all rfl),
    (status_all_total_sum_and_mono 0 20 30 _ (by decide)
      (of_decide_eq_true (by with_unfolding_all rfl))).1,
    (status_all_total_sum_and_mono 0 20 30 _ (by decide)
      (of_decide_eq_true (by with_unfolding_all rfl))).2⟩

/-- The empty store satisfies the invariant. -/
theorem wfStore_nil : wfStore [] := by
  intro iv h
  exact absurd h (List.not_mem_nil iv)

/-- Appending to a store of closed intervals keeps the invariant. -/
theorem wfStore_append_of_all_closed {l : List Interval} (x : Interval)
    (h : ∀ iv ∈ l, iv.stop ≠ none) : wfStore (l ++ [x]) := by
  intro iv hm
  rw [List.dropLast_concat] at hm
  exact h iv hm

/-- In a well-formed store whose last interval is closed, every interval is
closed. -/
theorem all_closed_of_wf_last {l : List Interval} {iv : Interval}
    (hwf : wfStore l) (hl : l.getLast? = some iv) (hs : iv.stop ≠ none) :
    ∀ y ∈ l, y.stop ≠ none := by
  obtain ⟨pre, rfl⟩ := List.getLast?_eq_some_iff.mp hl
  intro y hy
  rcases List.mem_append.mp hy with h' | h'
  · refine hwf y ?_
    rw [List.dropLast_concat]
    exact h'
  · rw [List.mem_singleton.mp h']
    exact hs

/-- `status` never writes the store. -/
theorem status_store_unchanged (all : Bool) (tz now : ℚ) (timers : List Interval) :
    (status all tz now timers).1 = timers := by
  unfold status
  repeat' split
  all_goals rfl

/-- C4: every command — `start`, `stop`, `status`, `reset`, `push` — maps a
store in which only the last-appended interval may be open to another such
store, and none of them reorders intervals: `start` returns the store or the
store with one interval appended, `stop` returns the store or the store with
just its last element replaced by its closed copy, `status` leaves the store
alone, and `reset`/`push` leave it unchanged or empty it. -/
theorem commands_preserve_invariant (tz now : ℚ) (msg : String) (envOk all : Bool)
    (sink : SinkResult) (timers : List Interval) (hwf : wfStore timers) :
    (wfStore (start now timers).1 ∧
      ((start now timers).1 = timers ∨ (start now timers).1 = timers ++ [⟨now, none⟩])) ∧
    (wfStore (stop now timers).1 ∧
      ((stop now timers).1 = timers ∨
        ∃ iv, timers.getLast? = some iv ∧
          (stop now timers).1 = timers.dropLast ++ [⟨iv.start, some now⟩])) ∧
    ((status all tz now timers).1 = timers ∧ wfStore (status all tz now timers).1) ∧
    ((reset timers).1 = [] ∧ wfStore (reset timers).1) ∧
    (wfStore (push envOk tz now msg sink timers).store ∧
      ((push envOk tz now msg sink timers).store = timers ∨
        (push envOk tz now msg sink timers).store = [])) := by
  refine ⟨?_, ?_, ?_, ⟨rfl, wfStore_nil⟩, ?_⟩
  · -- start
    cases hl : timers.getLast? with
    | none =>
      have ht : timers = [] := List.getLast?_eq_none_iff.mp hl
      subst ht
      exact ⟨wfStore_nil, Or.inr rfl⟩
    | some iv =>
      by_cases hs : iv.stop = none
      · have hstart : (start now timers).1 = timers := by
          simp [start, hl, hs]
        rw [hstart]
        exact ⟨hwf, Or.inl rfl⟩
      · have hstart : (start now timers).1 = timers ++ [⟨now, none⟩] := by
          simp [start, hl, hs]
        rw [hstart]
        exact ⟨wfStore_append_of_all_closed _ (all_closed_of_wf_last hwf hl hs), Or.inr rfl⟩
  · -- stop
    cases hl : timers.getLast? with
    | none =>
      have ht : timers = [] := List.getLast?_eq_none_iff.mp hl
      subst ht
      exact ⟨wfStore_nil, Or.inl rfl⟩
    | some iv =>
      by_cases hs : iv.stop = none
      · have hstop : (stop now timers).1 = timers.dropLast ++ [⟨iv.start, some now⟩] := by
          simp [stop, hl, hs]
        refine ⟨?_, Or.inr ⟨iv, rfl, hstop⟩⟩
        rw [hstop]
        intro y hy
        rw [List.dropLast_concat] at hy
        exact hwf y hy
      · have hstop : (stop now timers).1 = timers := by
          simp [stop, hl, hs]
        rw [hstop]
        exact ⟨hwf, Or.inl rfl⟩
  · -- status
    have h := status_store_unchanged all tz now timers
    refine ⟨h, ?_⟩
    rw [h]
    exact hwf
  · -- push
    cases envOk with
    | false => exact ⟨by simpa [push] using hwf, Or.inl (by simp [push])⟩
    | true =>
      cases hie : timers.isEmpty
      · cases hb : buildAttendances tz now msg timers with
        | error e =>
          have hp : (push true tz now msg sink timers).store = timers := by
            simp [push, hie, hb]
          rw [hp]
          exact ⟨hwf, Or.inl rfl⟩
        | ok atts =>
          cases sink with
          | transportError =>
            have hp : (push true tz now msg .transportError timers).store = timers := by
              simp [push, hie, hb]
            rw [hp]
            exact ⟨hwf, Or.inl rfl⟩
          | status code =>
            have hp : (push true tz now msg (.status code) timers).store = [] := by
              simp [push, hie, hb]
            rw [hp]
            exact ⟨wfStore_nil, Or.inr rfl⟩
      · have hp : (push true tz now msg sink timers).store = timers := by
          simp [push, hie]
        rw [hp]
        exact ⟨hwf, Or.inl rfl⟩

/-- C4 witness: all five commands applied to the concrete well-formed store
`[(1, 2)]` with `now = 50`. -/
theorem commands_preserve_invariant_witness :
    wfStore [⟨1, some 2⟩] ∧
    ((wfStore (start 50 [⟨1, some 2⟩]).1 ∧
      ((start 50 [⟨1, some 2⟩]).1 = [⟨1, some 2⟩] ∨
        (start 50 [⟨1, some 2⟩]).1 = [⟨1, some 2⟩] ++ [⟨50, none⟩])) ∧
    (wfStore (stop 50 [⟨1, some 2⟩]).1 ∧
      ((stop 50 [⟨1, some 2⟩]).1 = [⟨1, some 2⟩] ∨
        ∃ iv, ([⟨1, some 2⟩] : List Interval).getLast? = some iv ∧
          (stop 50 [⟨1, some 2⟩]).1 =
            ([⟨1, some 2⟩] : List Interval).dropLast ++ [⟨iv.start, some 50⟩])) ∧
    ((status false 0 50 [⟨1, some 2⟩]).1 = [⟨1, some 2⟩] ∧
      wfStore (status false 0 50 [⟨1, some 2⟩]).1) ∧
    ((reset [⟨1, some 2⟩]).1 = [] ∧ wfStore (reset [⟨1, some 2⟩]).1) ∧
    (wfStore (push true 0 50 "m" (.status 200) [⟨1, some 2⟩]).store ∧
      ((push true 0 50 "m" (.status 200) [⟨1, some 2⟩]).store = [⟨1, some 2⟩] ∨
        (push true 0 50 "m" (.status 200) [⟨1, some 2⟩]).store = []))) :=
  ⟨by decide, commands_preserve_invariant 0 50 "m" true false (.status 200) [⟨1, some 2⟩] (by decide)⟩

/-- C2 counterexample: the round-trip claim fails on a well-formed store
whose (only, hence last) interval is open.  The store holding exactly the
line `start` itself writes for `start = 100.5` — `"100.5,"` — loads to an
open interval, but `update_timer_state` prints the `None` end as the literal
text `None`, producing the different line `"100.5,None"` (which a later
load would even reject). -/
theorem overwrite_load_not_identity_on_open :
    save_timer_state_line (201/2) = "100.5," ∧
    loadLines ["100.5,"] = .ok [⟨201/2, none⟩] ∧
    update_timer_state [⟨201/2, none⟩] = ["100.5,None"] ∧
    (["100.5,None"] : List String) ≠ ["100.5,"] :=
  ⟨by with_unfolding_all rfl, by with_unfolding_all rfl, by with_unfolding_all rfl, by decide⟩

/-- C2 (amended): `overwrite(load())` is the identity on a well-formed store
all of whose intervals are closed and whose lines are in the program's own
canonical serialization (each stored float reparses to itself); a store with
an open interval is instead rewritten with a literal `None` end field. -/
theorem overwrite_load_identity_on_closed (ivs : List Interval)
    (_hclosed : ∀ iv ∈ ivs, iv.stop ≠ none)
    (hline : ∀ iv ∈ ivs, parseTimerLine (serializeLine iv) = .ok iv) :
    loadLines (update_timer_state ivs) = .ok ivs ∧
    (loadLines (update_timer_state ivs)).map update_timer_state =
      .ok (update_timer_state ivs) := by
  have h1 : loadLines (update_timer_state ivs) = .ok ivs := by
    clear _hclosed
    induction ivs with
    | nil => rfl
    | cons a rest ih =>
      have ha := hline a (List.mem_cons_self a rest)
      have hr := ih (fun iv h => hline iv (List.mem_cons_of_mem a h))
      show loadLines (serializeLine a :: update_timer_state rest) = .ok (a :: rest)
      simp [loadLines, ha, hr]
  refine ⟨h1, ?_⟩
  rw [h1]
  rfl

/-- C2 witness: on the canonical all-closed two-interval store
`["1.0,2.5", "3.0,4.0"]`, loading and overwriting reproduces the file
byte for byte. -/
theorem overwrite_load_identity_witness :
    (∀ iv ∈ ([⟨1, some (5/2)⟩, ⟨3, some 4⟩] : List Interval), iv.stop ≠ none) ∧
    (∀ iv ∈ ([⟨1, some (5/2)⟩, ⟨3, some 4⟩] : List Interval),
      parseTimerLine (serializeLine iv) = .ok iv) ∧
    loadLines (update_timer_state [⟨1, some (5/2)⟩, ⟨3, some 4⟩]) =
      .ok [⟨1, some (5/2)⟩, ⟨3, some 4⟩] ∧
    (loadLines (update_timer_state [⟨1, some (5/2)⟩, ⟨3, some 4⟩])).map update_timer_state =
      .ok (update_timer_state [⟨1, some (5/2)⟩, ⟨3, some 4⟩]) :=
  ⟨of_decide_eq_true (by with_unfolding_all rfl),
    of_decide_eq_true (by with_unfolding_all rfl),
    (overwrite_load_identity_on_closed [⟨1, some (5/2)⟩, ⟨3, some 4⟩]
      (of_decide_eq_true (by with_unfolding_all rfl))
      (of_decide_eq_true (by with_unfolding_all rfl))).1,
    (overwrite_load_identity_on_closed [⟨1, some (5/2)⟩, ⟨3, some 4⟩]
      (of_decide_eq_true (by with_unfolding_all rfl))
      (of_decide_eq_true (by with_unfolding_all rfl))).2⟩

/-- C7: loading is strict.  A successful load parses every line — one
interval per line, in order; a single rejected line makes the whole load
fail (no skipping, no partial result); and a line only parses when
`strip` + `split(',')` yields exactly two fields whose first is a float
literal, an empty second field meaning an open interval and a non-empty
one a parsed end time. -/
theorem load_strict (lines : List String) :
    (∀ ivs, loadLines lines = .ok ivs →
      ivs.length = lines.length ∧
      ∀ i (h1 : i < lines.length) (h2 : i < ivs.length),
        parseTimerLine (lines.get ⟨i, h1⟩) = .ok (ivs.get ⟨i, h2⟩)) ∧
    ((∃ line ∈ lines, parseRejects line = true) →
      ∀ ivs, loadLines lines ≠ .ok ivs) ∧
    (∀ line iv, parseTimerLine line = .ok iv →
      ∃ a b, splitOnChar ',' (trimChars line.data) = [a, b] ∧
        pyFloatCore (trimChars a) = some iv.start ∧
        ((b = [] ∧ iv.stop = none) ∨ (b ≠ [] ∧ pyFloatCore (trimChars b) = iv.stop))) := by
  refine ⟨?_, ?_, ?_⟩
  · induction lines with
    | nil =>
      intro ivs h
      cases h
      exact ⟨rfl, by intro i h1; cases h1⟩
    | cons l ls ih =>
      intro ivs h
      unfold loadLines at h
      cases hp : parseTimerLine l with
      | error e => rw [hp] at h; cases h
      | ok iv =>
        rw [hp] at h
        cases hr : loadLines ls with
        | error e => rw [hr] at h; cases h
        | ok rest =>
          rw [hr] at h
          cases h
          obtain ⟨hlen, hidx⟩ := ih rest hr
          refine ⟨by simp [hlen], ?_⟩
          intro i h1 h2
          cases i with
          | zero => exact hp
          | succ j => exact hidx j (Nat.lt_of_succ_lt_succ h1) (Nat.lt_of_succ_lt_succ h2)
  · induction lines with
    | nil =>
      intro hex
      rcases hex with ⟨line, hmem, _⟩
      cases hmem
    | cons l ls ih =>
      intro hex ivs h
      unfold loadLines at h
      cases hp : parseTimerLine l with
      | error e => rw [hp] at h; cases h
      | ok iv =>
        rw [hp] at h
        cases hr : loadLines ls with
        | error e => rw [hr] at h; cases h
        | ok rest =>
          rcases hex with ⟨line, hmem, hrej⟩
          rcases List.mem_cons.mp hmem with h' | h'
          · subst h'
            rw [show parseRejects line = false from by unfold parseRejects; rw [hp]] at hrej
            cases hrej
          · exact ih ⟨line, h', hrej⟩ rest hr
  · intro line iv h
    unfold parseTimerLine at h
    rcases hs : splitOnChar ',' (trimChars line.data) with _ | ⟨a, _ | ⟨b, _ | _⟩⟩ <;> rw [hs] at h
    · exact Except.noConfusion h
    · exact Except.noConfusion h
    · simp only [parseFields] at h
      unfold parseTwoFields at h
      cases hpa : pyFloatCore (trimChars a) with
      | none => rw [hpa] at h; exact Except.noConfusion h
      | some s =>
        rw [hpa] at h
        by_cases hb : b.isEmpty
        · rw [hb] at h
          have h' : (Except.ok ⟨s, none⟩ : Except String Interval) = .ok iv := h
          injection h' with hiv
          subst hiv
          exact ⟨a, b, rfl, hpa, Or.inl ⟨List.isEmpty_iff.mp hb, rfl⟩⟩
        · have hb2 : b.isEmpty = false := by simpa using hb
          rw [hb2] at h
          cases hpb : pyFloatCore (trimChars b) with
          | none =>
            rw [hpb] at h
            exact Except.noConfusion h
          | some e =>
            rw [hpb] at h
            have h' : (Except.ok ⟨s, some e⟩ : Except String Interval) = .ok iv := h
            injection h' with hiv
            subst hiv
            refine ⟨a, b, rfl, hpa, Or.inr ⟨?_, hpb⟩⟩
            intro hbe
            rw [hbe] at hb2
            exact Bool.noConfusion hb2
    · exact Except.noConfusion h

/-- C7 witness: the well-formed file `["3.5,4.5", "7.25,"]` loads completely
(two intervals, in order, the second open), while the file `["abc,1"]`,
whose first field is not a number, fails to load entirely. -/
theorem load_strict_witness :
    (loadLines ["3.5,4.5", "7.25,"] = .ok [⟨7/2, some (9/2)⟩, ⟨29/4, none⟩]) ∧
    (([⟨7/2, some (9/2)⟩, ⟨29/4, none⟩] : List Interval).length =
      (["3.5,4.5", "7.25,"] : List String).length) ∧
    (∃ line ∈ (["abc,1"] : List String), parseRejects line = true) ∧
    (∀ ivs, loadLines ["abc,1"] ≠ .ok ivs) :=
  ⟨by with_unfolding_all rfl,
    ((load_strict ["3.5,4.5", "7.25,"]).1 [⟨7/2, some (9/2)⟩, ⟨29/4, none⟩]
      (by with_unfolding_all rfl)).1,
    of_decide_eq_true (by with_unfolding_all rfl),
    (load_strict ["abc,1"]).2.1 (of_decide_eq_true (by with_unfolding_all rfl))⟩

end Plog
